import Mathlib

/-!
# Verification of the x-influx column-layout resolution and write pipeline

Shallow embedding of the core of the `x-influx` repository (Rust):
`src/mapping.rs`, `src/mapper/mod.rs`, `src/mapper/csv.rs`,
`src/mapper/interactive.rs`, `src/client.rs`, and the earlier single-file
draft `src/main.rs`.

Strings are Lean `String`s, Rust `Vec<T>` is `List T`, Rust `usize` is
`Nat`, Rust `i64` values are `Int` (with an explicit two's-complement wrap
where an i64 multiplication can overflow).  Fallible Rust functions
(returning `Result<T, ConvertError>`) become `Except ConvertError T`.
External collaborators (chrono date parsing, the influent database client,
stdin) are passed in explicitly as functions / data.
-/

namespace XInflux

/-- The error taxonomy of `src/error.rs` (`ConvertError`).  The payloads of
`Influx`, `Join` and `Send` are io/thread handles we do not model. -/
inductive ConvertError where
  | notFound (s : String)
  | importError (s : String)
  | influx
  | joinError
  | sendError
deriving DecidableEq, Repr

/-- Rust `Iterator::position`: index of the first element satisfying `p`,
or `none`.  Used by `data.iter().position(..)` throughout the repository. -/
def position (p : α → Bool) : List α → Option Nat
  | [] => none
  | a :: l => if p a then some 0 else (position p l).map (· + 1)

namespace Mapping

/-- `Layout` from `src/mapping.rs` (identical field-wise to the one in
`src/mapper/mod.rs`): column names for the measurement value, the tags and
the timestamp, plus the timestamp format string. -/
structure Layout where
  measure : String
  tags : List String
  time : String
  tformat : String
deriving DecidableEq, Repr

/-- `Layout::default()` from `src/mapping.rs` / `src/mapper/mod.rs`. -/
def Layout.default : Layout :=
  { measure := "data", tags := [], time := "timestamp", tformat := "%F %H:%M:%S" }

/-- `Layout::get_measure_col` (`src/mapping.rs` lines 32-36): position of
the measure column, or `NotFound("Measure")`. -/
def Layout.get_measure_col (l : Layout) (data : List String) :
    Except ConvertError Nat :=
  match position (fun e => e == l.measure) data with
  | some i => .ok i
  | none => .error (.notFound "Measure")

/-- `Layout::get_time_col` (`src/mapping.rs` lines 39-43): position of the
time column, or `NotFound("Timestamp")`. -/
def Layout.get_time_col (l : Layout) (data : List String) :
    Except ConvertError Nat :=
  match position (fun e => e == l.time) data with
  | some i => .ok i
  | none => .error (.notFound "Timestamp")

/-- `Layout::get_tag_cols` (`src/mapping.rs` lines 47-53): positions of the
tag columns that occur in the header; absent names are silently dropped
(`filter_map`). -/
def Layout.get_tag_cols (l : Layout) (data : List String) : List Nat :=
  l.tags.filterMap (fun t => position (fun e => e == t) data)

end Mapping

namespace MainDraft

/-- `Layout` from the single-file draft `src/main.rs` (lines 200-205); the
measure column name is called `value` there. -/
structure Layout where
  value : String
  tags : List String
  time : String
  tformat : String
deriving DecidableEq, Repr

/-- `Layout::default()` from `src/main.rs`. -/
def Layout.default : Layout :=
  { value := "data", tags := [], time := "timestamp", tformat := "%F %H:%M:%S" }

/-- `Layout::apply` from `src/main.rs` lines 229-247: resolves the value
column (else `NotFound("Value")`), then the tag columns (absent tags are
dropped), then the time column (else `NotFound("Timestamp")`). -/
def Layout.apply (l : Layout) (data : List String) :
    Except ConvertError (Nat × List Nat × Nat) := do
  let val ← match position (fun e => e == l.value) data with
    | some p => Except.ok p
    | none => Except.error (.notFound "Value")
  let tags := l.tags.filterMap (fun t => position (fun e => e == t) data)
  let time ← match position (fun e => e == l.time) data with
    | some p => Except.ok p
    | none => Except.error (.notFound "Timestamp")
  Except.ok (val, tags, time)

end MainDraft

namespace Csv

/-- `Csv::find_pos` (`src/mapper/csv.rs` lines 37-41): position of a named
field in the header row, or `NotFound(name)`. -/
def find_pos (name : String) (data : List String) : Except ConvertError Nat :=
  match position (fun e => e == name) data with
  | some i => .ok i
  | none => .error (.notFound name)

/-- `Csv::find_positions` (`src/mapper/csv.rs` lines 45-50): the positions
of the names that occur in the header, dropped silently when absent
(`filter_map (.. find_pos ..).ok()`). -/
def find_positions (names : List String) (data : List String) : List Nat :=
  names.filterMap (fun t => (find_pos t data).toOption)

end Csv

/-- A chrono `DateTime<Utc>` (external collaborator), modelled by its Unix
timestamp split into whole seconds and the sub-second nanosecond part.
chrono's `timestamp()` returns the whole seconds. -/
structure DateTime where
  secs : Int
  nsubsec : Nat
deriving DecidableEq, Repr

/-- chrono `DateTime::timestamp()`: Unix timestamp in whole seconds; the
sub-second part is not part of the result. -/
def DateTime.timestamp (d : DateTime) : Int := d.secs

/-- `Message` from `src/client.rs` lines 14-19: `time` is an i64 Unix
timestamp in seconds, `value` is the field name/value pair, `tags` the tag
name/value pairs. -/
structure Message where
  time : Int
  value : String × String
  tags : List (String × String)
deriving DecidableEq, Repr

/-- `Message::new` (`src/client.rs` lines 21-33): stores
`time.timestamp()` (whole seconds) and the value and tag pairs as given. -/
def Message.new (time : DateTime) (value : String × String)
    (tags : List (String × String)) : Message :=
  { time := time.timestamp, value := value, tags := tags }

/-- Two's-complement wrap-around of an i64 arithmetic result, the release
-mode semantics of an overflowing Rust i64 operation (a debug build panics
on the same overflow instead). -/
def wrap64 (n : Int) : Int := (n + 2 ^ 63) % 2 ^ 64 - 2 ^ 63

/-- The influent `Measurement` as the worker builds it (`src/client.rs`
lines 96-101): series key, the single field added by `add_field`, the
timestamp set by `set_timestamp`, and the tags added by `add_tag`. -/
structure Measurement where
  key : String
  fields : List (String × String)
  timestamp : Int
  tags : List (String × String)
deriving DecidableEq, Repr

/-- The body of the worker loop for one received message (`src/client.rs`
lines 96-101): one field `value.0 → value.1`, the timestamp converted to
nanoseconds by the i64 product `m.time * 1000000000`, and the tag pairs. -/
def renderMessage (series : String) (m : Message) : Measurement :=
  { key := series,
    fields := [(m.value.1, m.value.2)],
    timestamp := wrap64 (m.time * 1000000000),
    tags := m.tags }

/-- The messages the worker consumes before the shutdown signal: the queue
prefix up to the first `None`. -/
def messagesUntilShutdown : List (Option Message) → List Message
  | [] => []
  | none :: _ => []
  | some m :: rest => m :: messagesUntilShutdown rest

/-- The worker loop of `InfluxClient::new` (`src/client.rs` lines 80-106)
over the sequence of received queue items: renders and writes each message
and breaks at the first `None`. -/
def runWorker (series : String) : List (Option Message) → List Measurement
  | [] => []
  | none :: _ => []
  | some m :: rest => renderMessage series m :: runWorker series rest

/-- The observable state of an `InfluxClient` (`src/client.rs` lines
36-39): the queued items not yet consumed, and whether the worker thread
(the mpsc receiver's owner) is still alive.  Per the std `mpsc` contract a
send succeeds exactly while the receiver is alive. -/
structure ClientState where
  queue : List (Option Message)
  workerAlive : Bool
deriving DecidableEq, Repr

/-- An mpsc `Sender::send`: enqueues while the worker (receiver) is alive,
otherwise fails; `InfluxClient` maps the failure to `ConvertError::Send`. -/
def ClientState.sendRaw (st : ClientState) (x : Option Message) :
    Except ConvertError ClientState :=
  if st.workerAlive then .ok { st with queue := st.queue ++ [x] }
  else .error .sendError

/-- `InfluxClient::send` (`src/client.rs` lines 52-54): enqueue
`Some(msg)`. -/
def InfluxClient.send (st : ClientState) (m : Message) :
    Except ConvertError ClientState :=
  st.sendRaw (some m)

/-- `InfluxClient::join` (`src/client.rs` lines 44-49): first enqueue the
shutdown signal `None` (failing with the send error if the worker is
gone), and only then block on the worker thread.  On success the worker
has drained the queue, consumed the signal and exited, so the receiver is
dropped. -/
def InfluxClient.join (series : String) (st : ClientState) :
    Except ConvertError (List Measurement × ClientState) :=
  match st.sendRaw none with
  | .error e => .error e
  | .ok st2 => .ok (runWorker series st2.queue, ⟨[], false⟩)

/-- The `Csv` mapper struct (`src/mapper/csv.rs` lines 18-24): source file
locations, batch flag (unused), delimiter and the number of rows before
the header. -/
structure Csv where
  files : List String
  batch : Bool
  delimiter : Char
  first_row : Nat
deriving DecidableEq, Repr

namespace Csv

/-- `Csv::split` (`src/mapper/csv.rs` lines 53-55): Rust
`str::split(char)`, splitting at every occurrence of the delimiter and
keeping empty pieces (an empty line yields one empty token). -/
def split (c : Csv) (line : String) : List String :=
  (line.data.splitOn c.delimiter).map (fun cs => String.mk cs)

/-- `Csv::skip` (`src/mapper/csv.rs` lines 58-63): drop the configured
number of initial lines and return the next one as the header; a missing
or unreadable header line is an `Import` error.  A line of the file is
modelled as `Except String String`: `.error` is an io read failure. -/
def skip (c : Csv) (lines : List (Except String String)) :
    Except ConvertError String :=
  match (lines.drop c.first_row).head? with
  | none => .error (.importError "Header not found")
  | some (.error e) => .error (.importError e)
  | some (.ok l) => .ok l

/-- `Csv::read_header` (`src/mapper/csv.rs` lines 66-76): split the header
line and resolve the measure column, the time column and the tag
columns. -/
def read_header (c : Csv) (layout : Mapping.Layout)
    (lines : List (Except String String)) :
    Except ConvertError (Nat × Nat × List Nat) := do
  let headerLine ← c.skip lines
  let header := c.split headerLine
  let measure ← find_pos layout.measure header
  let time ← find_pos layout.time header
  let tags := find_positions layout.tags header
  Except.ok (measure, time, tags)

/-- `Csv::open` (`src/mapper/csv.rs` lines 78-82) against a modelled
filesystem `fs` (file name to its lines, `none` if the open fails, which
is mapped to an `Import` error). -/
def openFile (fs : String → Option (List (Except String String)))
    (f : String) : Except ConvertError (List (Except String String)) :=
  match fs f with
  | none => .error (.importError ("Failed to import file " ++ f))
  | some lines => .ok lines

end Csv

/-- The fate of one data row inside `Csv::import` (`src/mapper/csv.rs`
lines 110-124): an out-of-range index access panics the thread, a
timestamp parse failure skips the row (`continue`), otherwise a `Message`
is built. -/
inductive RowStep where
  | panicked
  | skipped
  | message (m : Message)
deriving DecidableEq, Repr

/-- The tag-pair loop of `Csv::import` (`src/mapper/csv.rs` lines
119-122): `for (i, n) in tags.iter().enumerate()` pushes
`(layout.tags[i], data[*n])` — `i` is the position in the *resolved*
index list, re-indexed into the full tag-name list.  `none` models the
panic of an out-of-range `Vec` index. -/
def tagPairs : List String → List Nat → List String →
    Option (List (String × String))
  | _, [], _ => some []
  | [], _ :: _, _ => none
  | nm :: nms, n :: ns, data => do
      let v ← data[n]?
      let rest ← tagPairs nms ns data
      some ((nm, v) :: rest)

/-- One data row of `Csv::import` (`src/mapper/csv.rs` lines 110-124):
read `data[measure]` (panicking when out of range), parse
`data[time]` with the layout's format (skipping the row on failure,
panicking when out of range), pair the resolved tag columns, and build the
`Message`.  `parse` is chrono's `Utc.datetime_from_str`, an external
collaborator passed explicitly. -/
def processRow (layout : Mapping.Layout)
    (parse : String → String → Option DateTime)
    (measure time : Nat) (tags : List Nat) (data : List String) : RowStep :=
  match data[measure]? with
  | none => .panicked
  | some mval =>
    match data[time]? with
    | none => .panicked
    | some tval =>
      match parse tval layout.tformat with
      | none => .skipped
      | some ts =>
        match tagPairs layout.tags tags data with
        | none => .panicked
        | some tp => .message (Message.new ts (layout.measure, mval) tp)

/-- Outcome of the row loop of `Csv::import` over one file's data lines,
with the messages sent to the client so far: `done` reaches the end of the
file, `failed` is the early `return Err(..)` of a `try!` (a line read
failure becomes `ConvertError::Influx` via `From<io::Error>`), `panicked`
is an out-of-range index. -/
inductive RowsResult where
  | done (sent : List Message)
  | failed (sent : List Message) (e : ConvertError)
  | panicked (sent : List Message)
deriving DecidableEq, Repr

/-- The data-row loop of `Csv::import` (`src/mapper/csv.rs` lines
107-129).  A send failure is only logged, so every built message counts as
sent. -/
def rowLoop (layout : Mapping.Layout)
    (parse : String → String → Option DateTime)
    (measure time : Nat) (tags : List Nat) (c : Csv) :
    List (Except String String) → RowsResult
  | [] => .done []
  | line :: rest =>
    match line with
    | .error _ => .failed [] (.influx)
    | .ok l =>
      match processRow layout parse measure time tags (c.split l) with
      | .panicked => .panicked []
      | .skipped => rowLoop layout parse measure time tags c rest
      | .message m =>
        match rowLoop layout parse measure time tags c rest with
        | .done s => .done (m :: s)
        | .failed s e => .failed (m :: s) e
        | .panicked s => .panicked (m :: s)

/-- Outcome of `Csv::import`: `ok` is `Ok(())` with the messages sent,
`failed` is an early `Err(..)` return, `panicked` an index panic; the
messages sent before the event are carried along. -/
inductive ImportOutcome where
  | ok (sent : List Message)
  | failed (sent : List Message) (e : ConvertError)
  | panicked (sent : List Message)
deriving DecidableEq, Repr

/-- The file loop of `Csv::import` (`src/mapper/csv.rs` lines 87-131):
`try!(self.open(file))` returns early on an open failure; a header
resolution failure logs and `continue`s to the next file; the file is
reopened and the data rows (after `first_row + 1` lines) are processed. -/
def filesLoop (c : Csv) (layout : Mapping.Layout)
    (parse : String → String → Option DateTime)
    (fs : String → Option (List (Except String String))) :
    List String → ImportOutcome
  | [] => .ok []
  | f :: rest =>
    match Csv.openFile fs f with
    | .error e => .failed [] e
    | .ok lines =>
      match c.read_header layout lines with
      | .error _ => filesLoop c layout parse fs rest
      | .ok (measure, time, tags) =>
        match rowLoop layout parse measure time tags c
            (lines.drop (c.first_row + 1)) with
        | .panicked s => .panicked s
        | .failed s e => .failed s e
        | .done s =>
          match filesLoop c layout parse fs rest with
          | .ok s2 => .ok (s ++ s2)
          | .failed s2 e => .failed (s ++ s2) e
          | .panicked s2 => .panicked (s ++ s2)

/-- `Csv::import` (`src/mapper/csv.rs` lines 85-132). -/
def Csv.import (c : Csv) (layout : Mapping.Layout)
    (parse : String → String → Option DateTime)
    (fs : String → Option (List (Except String String))) : ImportOutcome :=
  filesLoop c layout parse fs c.files

/-- `Interactive::read_string` (`src/mapper/interactive.rs` lines 17-23)
against a modelled stdin (list of remaining input lines).  At end of input
`read_line` returns `Ok(0)` leaving the buffer empty, so the function
returns `Ok("")` — not an error. -/
def Interactive.read_string (stdin : List String) : String × List String :=
  match stdin with
  | [] => ("", [])
  | l :: rest => (l.trim, rest)

/-- One iteration of `Interactive::import`'s loop plus the loop itself
(`src/mapper/interactive.rs` lines 41-76), run for `fuel` iterations:
read the three prompts, parse the timestamp (`continue` on failure), zip
the non-empty configured tag names with the entered values, build and send
the message, and loop.  `some` would be a return value of `import`; `none`
means the loop is still running after `fuel` iterations.  Every branch of
the source loop ends in `continue` or falls through to the next
iteration, so there is no returning branch at all. -/
def Interactive.importFuel (layout : Mapping.Layout)
    (parse : String → String → Option DateTime) :
    Nat → List String → List Message →
    Option (List Message × Except ConvertError Unit)
  | 0, _, _ => none
  | fuel + 1, stdin, sent =>
    let (measure, stdin1) := Interactive.read_string stdin
    let (time, stdin2) := Interactive.read_string stdin1
    let (tagsRaw, stdin3) := Interactive.read_string stdin2
    let tags := tagsRaw.split (fun ch => ch == ',')
    match parse time layout.tformat with
    | none => Interactive.importFuel layout parse fuel stdin3 sent
    | some ts =>
      let tagList := (layout.tags.filter (fun e => !e.isEmpty)).zip tags
      let msg := Message.new ts (layout.measure, measure) tagList
      Interactive.importFuel layout parse fuel stdin3 (sent ++ [msg])

/-- A miniature stand-in for chrono's `Utc.datetime_from_str` used in the
concrete evaluations: the literal `tN` parses to `N` seconds. -/
def toyParse : String → String → Option DateTime := fun s _ =>
  if s == "t1" then some ⟨1, 0⟩
  else if s == "t2" then some ⟨2, 0⟩
  else if s == "t3" then some ⟨3, 0⟩
  else none

/-- Lines of the single well-formed test file for claim C6: a header, two
good rows and one row (`bad,2`) whose timestamp does not parse. -/
def linesC6 : List String := ["timestamp,data", "t1,1", "bad,2", "t2,3"]

/-- Filesystem for claim C6: one readable file. -/
def fsC6 : String → Option (List (Except String String)) := fun f =>
  if f == "f.csv" then some (linesC6.map Except.ok) else none

/-- The message each good row of `linesC6` produces. -/
def gC6 : String → Message := fun r =>
  if r == "t1,1" then Message.new ⟨1, 0⟩ ("data", "1") []
  else Message.new ⟨2, 0⟩ ("data", "3") []

/-- Filesystem for claim C3: `a.csv` fails to open, `b.csv` is a
well-formed file with one good row. -/
def fsC3 : String → Option (List (Except String String)) := fun f =>
  if f == "b.csv" then some [.ok "timestamp,data", .ok "t1,7"] else none

/-- Filesystem for claim C4: one file whose single data row has one token,
so the resolved measure column index 1 is out of range. -/
def fsC4 : String → Option (List (Except String String)) := fun f =>
  if f == "c.csv" then some [.ok "timestamp,data", .ok "t1"] else none

/-- Layout for claim C2: two tag names, of which only `y` occurs in the
header. -/
def layoutC2 : Mapping.Layout :=
  { measure := "data", tags := ["x", "y"], time := "timestamp",
    tformat := "%F %H:%M:%S" }

/-- Filesystem for claim C2: the header has column `y` (matched by the
second tag name) but no column `x`. -/
def fsC2 : String → Option (List (Except String String)) := fun f =>
  if f == "d.csv" then some [.ok "y,data,timestamp", .ok "V,5,t1"] else none

theorem position_nil (p : α → Bool) : position p ([] : List α) = none := rfl

theorem position_cons (p : α → Bool) (a : α) (l : List α) :
    position p (a :: l) = if p a then some 0 else (position p l).map (· + 1) := rfl

/-- `position` returns `none` exactly when no element satisfies `p`. -/
theorem position_eq_none_iff (p : α → Bool) (l : List α) :
    position p l = none ↔ ∀ a ∈ l, p a = false := by
  induction l with
  | nil => simp [position]
  | cons a l ih =>
    by_cases h : p a
    · simp [position, h]
    · rw [position, if_neg (by simp [h]), Option.map_eq_none', ih]
      constructor
      · intro hall b hb
        rcases List.mem_cons.mp hb with rfl | hb
        · exact Bool.not_eq_true _ |>.mp h
        · exact hall b hb
      · intro hall b hb
        exact hall b (List.mem_cons_of_mem a hb)

/-- `position` returns `some i` exactly when the `i`-th element satisfies `p`
and no earlier element does: the first occurrence wins. -/
theorem position_eq_some_iff (p : α → Bool) (l : List α) (i : Nat) :
    position p l = some i ↔
      (∃ a, l[i]? = some a ∧ p a = true) ∧
      (∀ j, j < i → ∀ b, l[j]? = some b → p b = false) := by
  induction l generalizing i with
  | nil => simp [position]
  | cons a l ih =>
    by_cases h : p a
    · rw [position, if_pos h]
      constructor
      · intro h2
        have hi : i = 0 := by
          have := Option.some.inj h2
          omega
        subst hi
        exact ⟨⟨a, by simp, h⟩, by omega⟩
      · rintro ⟨⟨b, hb, hpb⟩, hmin⟩
        cases i with
        | zero => rfl
        | succ i =>
          have := hmin 0 (Nat.succ_pos i) a (by simp)
          rw [h] at this
          cases this
    · rw [position, if_neg (by simp [h]), Option.map_eq_some']
      constructor
      · rintro ⟨j, hj, rfl⟩
        obtain ⟨⟨b, hb, hpb⟩, hmin⟩ := (ih j).mp hj
        refine ⟨⟨b, by simpa using hb, hpb⟩, ?_⟩
        intro k hk c hc
        cases k with
        | zero =>
          simp at hc
          subst hc
          exact Bool.not_eq_true _ |>.mp h
        | succ k =>
          exact hmin k (by omega) c (by simpa using hc)
      · rintro ⟨⟨b, hb, hpb⟩, hmin⟩
        cases i with
        | zero =>
          simp at hb
          subst hb
          exact absurd hpb (by simp [h])
        | succ i =>
          refine ⟨i, (ih i).mpr ⟨⟨b, by simpa using hb, hpb⟩, ?_⟩, rfl⟩
          intro k hk c hc
          exact hmin (k + 1) (by omega) c (by simpa using hc)

/-- A found position is inside the list. -/
theorem position_lt_length {p : α → Bool} {l : List α} {i : Nat}
    (h : position p l = some i) : i < l.length := by
  obtain ⟨⟨a, ha, _⟩, _⟩ := (position_eq_some_iff p l i).mp h
  exact (List.getElem?_eq_some.mp ha).1

/-- If every element of the list fails `p`, membership implies failure and
conversely; bridging `position = none` with list membership for `String`. -/
theorem position_beq_eq_none_iff (s : String) (l : List String) :
    position (fun e => e == s) l = none ↔ s ∉ l := by
  rw [position_eq_none_iff]
  constructor
  · intro h hmem
    have := h s hmem
    simp at this
  · intro h a ha
    by_cases has : a = s
    · exact absurd (has ▸ ha) h
    · simp [has]

theorem wrap64_eq_self {n : Int} (h1 : -2 ^ 63 ≤ n) (h2 : n < 2 ^ 63) :
    wrap64 n = n := by
  unfold wrap64
  rw [Int.emod_eq_of_lt (by omega) (by omega)]
  omega

/-- If `name` occurs in the header, `position` finds an index holding
exactly `name`, and no earlier index holds `name`. -/
theorem position_beq_of_mem {name : String} {data : List String}
    (h : name ∈ data) :
    ∃ i, position (fun e => e == name) data = some i ∧
      data[i]? = some name ∧
      ∀ j, j < i → ∀ b, data[j]? = some b → b ≠ name := by
  cases hp : position (fun e => e == name) data with
  | none =>
    exact absurd ((position_beq_eq_none_iff name data).mp hp) (not_not_intro h)
  | some i =>
    obtain ⟨⟨a, ha, hpa⟩, hmin⟩ := (position_eq_some_iff _ data i).mp hp
    have : a = name := by simpa using hpa
    subst this
    refine ⟨i, rfl, ha, ?_⟩
    intro j hj b hb hbn
    subst hbn
    have := hmin j hj b hb
    simp at this

/-- Claim C1 (amended).  Layout resolution (`Layout::apply` in
`src/main.rs`, `get_measure_col`/`get_time_col` in `src/mapping.rs`,
`find_pos` in `src/mapper/csv.rs`): a header missing the measure name fails
with the measure `NotFound` kind; a header that contains the measure name
but misses the time name fails with the time `NotFound` kind; a header
containing both resolves each to the index of its first occurrence.
(The unamended claim also demanded the time kind for headers missing both
names; the code checks the measure name first, see the counterexample.) -/
theorem claim_C1_layout_resolution (l : MainDraft.Layout) (data : List String) :
    (l.value ∉ data → l.apply data = .error (.notFound "Value")) ∧
    (l.value ∈ data → l.time ∉ data →
      l.apply data = .error (.notFound "Timestamp")) ∧
    (l.value ∈ data → l.time ∈ data →
      ∃ v tg t, l.apply data = .ok (v, tg, t) ∧
        data[v]? = some l.value ∧
        (∀ j, j < v → ∀ b, data[j]? = some b → b ≠ l.value) ∧
        data[t]? = some l.time ∧
        (∀ j, j < t → ∀ b, data[j]? = some b → b ≠ l.time)) ∧
    (∀ m : Mapping.Layout, m.measure ∉ data →
      m.get_measure_col data = .error (.notFound "Measure")) ∧
    (∀ m : Mapping.Layout, m.time ∉ data →
      m.get_time_col data = .error (.notFound "Timestamp")) ∧
    (∀ name, name ∉ data → Csv.find_pos name data = .error (.notFound name)) := by
  refine ⟨?_, ?_, ?_, ?_, ?_, ?_⟩
  · intro hv
    have hp := (position_beq_eq_none_iff l.value data).mpr hv
    simp only [MainDraft.Layout.apply, hp]
    rfl
  · intro hv ht
    obtain ⟨i, hpi, _, _⟩ := position_beq_of_mem hv
    have hpt := (position_beq_eq_none_iff l.time data).mpr ht
    simp only [MainDraft.Layout.apply, hpi, hpt]
    rfl
  · intro hv ht
    obtain ⟨v, hpv, hv1, hv2⟩ := position_beq_of_mem hv
    obtain ⟨t, hpt, ht1, ht2⟩ := position_beq_of_mem ht
    refine ⟨v, l.tags.filterMap (fun tg => position (fun e => e == tg) data),
      t, ?_, hv1, hv2, ht1, ht2⟩
    simp only [MainDraft.Layout.apply, hpv, hpt]
    rfl
  · intro m hm
    have hp := (position_beq_eq_none_iff m.measure data).mpr hm
    simp [Mapping.Layout.get_measure_col, hp]
  · intro m hm
    have hp := (position_beq_eq_none_iff m.time data).mpr hm
    simp [Mapping.Layout.get_time_col, hp]
  · intro name hn
    have hp := (position_beq_eq_none_iff name data).mpr hn
    simp [Csv.find_pos, hp]

/-- Counterexample to claim C1 as stated: the header `["a"]` misses the
time name `"timestamp"` of the default layout, yet `Layout::apply` fails
with the measure kind `NotFound("Value")` (the measure name is checked
first), not the time kind. -/
theorem claim_C1_counterexample :
    MainDraft.Layout.default.apply ["a"] =
      .error (.notFound "Value") ∧
    "timestamp" ∉ (["a"] : List String) ∧
    ConvertError.notFound "Value" ≠ ConvertError.notFound "Timestamp" := by
  refine ⟨rfl, by decide, by decide⟩

/-- Witness for C1: the default layout applied to the header
`["a", "data"]` (measure present, time absent) fails with the time kind. -/
theorem claim_C1_witness :
    MainDraft.Layout.default.apply ["a", "data"] =
      .error (.notFound "Timestamp") :=
  (claim_C1_layout_resolution MainDraft.Layout.default ["a", "data"]).2.1
    (by decide) (by decide)

/-- Claim C5.  Tag resolution (`Layout::get_tag_cols` in `src/mapping.rs`,
`Csv::find_positions` in `src/mapper/csv.rs`): the resolved tag-index
sequence is at most as long as the requested tag-name list; it is exactly
the first-occurrence index of each tag name that occurs in the header, in
the order of the tag-name list, with absent names silently omitted; and the
two implementations agree. -/
theorem claim_C5_tag_resolution (names data : List String) :
    (Csv.find_positions names data).length ≤ names.length ∧
    (∀ (k i : Nat), (Csv.find_positions names data)[k]? = some i →
      ∃ t, (names.filter (fun t => decide (t ∈ data)))[k]? = some t ∧
        data[i]? = some t ∧
        ∀ j, j < i → ∀ b, data[j]? = some b → b ≠ t) ∧
    (∀ m : Mapping.Layout, m.tags = names →
      m.get_tag_cols data = Csv.find_positions names data) := by
  have hfp : ∀ t : String, (Csv.find_pos t data).toOption =
      position (fun e => e == t) data := by
    intro t
    unfold Csv.find_pos
    cases position (fun e => e == t) data <;> rfl
  have hchar : Csv.find_positions names data =
      names.filterMap (fun t => position (fun e => e == t) data) := by
    unfold Csv.find_positions
    exact congrArg names.filterMap (funext hfp)
  refine ⟨?_, ?_, ?_⟩
  · rw [hchar]
    exact List.length_filterMap_le _ _
  · rw [hchar]
    clear hchar hfp
    induction names with
    | nil => intro k i h; simp at h
    | cons n names ih =>
      intro k i h
      by_cases hmem : n ∈ data
      · obtain ⟨p, hpos, hp1, hp2⟩ := position_beq_of_mem hmem
        rw [List.filterMap_cons, hpos] at h
        cases k with
        | zero =>
          simp only [List.getElem?_cons_zero, Option.some.injEq] at h
          subst h
          refine ⟨n, ?_, hp1, hp2⟩
          simp [hmem]
        | succ k =>
          simp only [List.getElem?_cons_succ] at h
          obtain ⟨t, ht1, ht2, ht3⟩ := ih k i h
          refine ⟨t, ?_, ht2, ht3⟩
          simp [List.filter_cons, hmem]
          exact ht1
      · have hpos := (position_beq_eq_none_iff n data).mpr hmem
        rw [List.filterMap_cons, hpos] at h
        obtain ⟨t, ht1, ht2, ht3⟩ := ih k i h
        refine ⟨t, ?_, ht2, ht3⟩
        simpa [List.filter_cons, hmem] using ht1
  · intro m hm
    rw [hchar, Mapping.Layout.get_tag_cols, hm]

/-- Witness for C5: tag names `["f", "x", "a"]` against header
`["a", "b", "f"]` resolve to `[2, 0]`; the first resolved index `2` is the
first occurrence of `"f"`, the first name that matched. -/
theorem claim_C5_witness :
    (Csv.find_positions ["f", "x", "a"] ["a", "b", "f"]).length ≤ 3 ∧
    (∃ t, ((["f", "x", "a"] : List String).filter
        (fun t => decide (t ∈ (["a", "b", "f"] : List String))))[0]? = some t ∧
      (["a", "b", "f"] : List String)[2]? = some t ∧
      ∀ j, j < 2 → ∀ b, (["a", "b", "f"] : List String)[j]? = some b → b ≠ t) :=
  ⟨(claim_C5_tag_resolution ["f", "x", "a"] ["a", "b", "f"]).1,
   (claim_C5_tag_resolution ["f", "x", "a"] ["a", "b", "f"]).2.1 0 2 rfl⟩

/-- If every row of a block maps to a message, the row loop reaches the
end of the block and sends exactly those messages in order. -/
theorem rowLoop_all_messages (layout : Mapping.Layout)
    (parse : String → String → Option DateTime) (measure time : Nat)
    (tags : List Nat) (c : Csv) (rows : List String) (g : String → Message)
    (h : ∀ r ∈ rows,
      processRow layout parse measure time tags (c.split r) = .message (g r)) :
    rowLoop layout parse measure time tags c (rows.map Except.ok) =
      .done (rows.map g) := by
  induction rows with
  | nil => rfl
  | cons r rows ih =>
    have hr := h r (List.mem_cons_self r rows)
    have hrest := fun x hx => h x (List.mem_cons_of_mem r hx)
    simp only [List.map_cons, rowLoop, hr, ih hrest]

/-- A single skipped row in the middle of a block of good rows: the loop
drops it and still sends every other row's message. -/
theorem rowLoop_skip_middle (layout : Mapping.Layout)
    (parse : String → String → Option DateTime) (measure time : Nat)
    (tags : List Nat) (c : Csv) (pre post : List String) (bad : String)
    (g : String → Message)
    (hgood : ∀ r ∈ pre ++ post,
      processRow layout parse measure time tags (c.split r) = .message (g r))
    (hbad : processRow layout parse measure time tags (c.split bad) = .skipped) :
    rowLoop layout parse measure time tags c
        ((pre ++ bad :: post).map Except.ok) =
      .done (pre.map g ++ post.map g) := by
  induction pre with
  | nil =>
    simp only [List.nil_append] at hgood ⊢
    simp only [List.map_cons, rowLoop, hbad]
    exact rowLoop_all_messages layout parse measure time tags c post g hgood
  | cons r pre ih =>
    have hr := hgood r (by simp)
    have hrest : ∀ x ∈ pre ++ post,
        processRow layout parse measure time tags (c.split x) = .message (g x) := by
      intro x hx
      refine hgood x ?_
      rcases List.mem_append.mp hx with hx | hx
      · exact List.mem_append.mpr (Or.inl (List.mem_cons_of_mem r hx))
      · exact List.mem_append.mpr (Or.inr hx)
    simp only [List.cons_append, List.map_cons, rowLoop, hr, List.append_eq]
    rw [ih hrest]

/-- Claim C6.  `Csv::import` on a single file whose header resolves: a row
whose timestamp does not parse is dropped (`continue`), no error is
propagated, and every other well-formed row still produces and sends its
`Message` (`src/mapper/csv.rs` lines 111-117). -/
theorem claim_C6_bad_timestamp_row_dropped (c : Csv)
    (layout : Mapping.Layout) (parse : String → String → Option DateTime)
    (fs : String → Option (List (Except String String))) (f : String)
    (lines : List String) (measure time : Nat) (tags : List Nat)
    (pre post : List String) (bad : String) (g : String → Message)
    (hfiles : c.files = [f])
    (hfs : fs f = some (lines.map Except.ok))
    (hheader : c.read_header layout (lines.map Except.ok) =
      .ok (measure, time, tags))
    (hrows : lines.drop (c.first_row + 1) = pre ++ bad :: post)
    (hgood : ∀ r ∈ pre ++ post,
      processRow layout parse measure time tags (c.split r) = .message (g r))
    (hbad : processRow layout parse measure time tags (c.split bad) = .skipped) :
    c.import layout parse fs = .ok (pre.map g ++ post.map g) := by
  unfold Csv.import
  rw [hfiles]
  simp only [filesLoop, Csv.openFile, hfs, hheader]
  rw [← List.map_drop, hrows,
    rowLoop_skip_middle layout parse measure time tags c pre post bad g hgood hbad]
  simp [filesLoop]

/-- Witness for C6: in a four-line file the middle row `bad,2` has an
unparsable timestamp; the import succeeds with exactly the messages of the
two good rows. -/
theorem claim_C6_witness :
    (Csv.mk ["f.csv"] false ',' 0).import Mapping.Layout.default toyParse fsC6
      = .ok (((["t1,1"] : List String).map gC6) ++
             ((["t2,3"] : List String).map gC6)) :=
  claim_C6_bad_timestamp_row_dropped (Csv.mk ["f.csv"] false ',' 0)
    Mapping.Layout.default toyParse fsC6 "f.csv" linesC6 1 0 []
    ["t1,1"] ["t2,3"] "bad,2" gC6 rfl rfl rfl rfl (by decide) (by decide)

/-- Claim C3 evaluation: with two configured locations where the first
fails to open, `Csv::import` returns `Err(Import ..)` immediately
(`try!(self.open(file))`, `src/mapper/csv.rs` line 90) and the second
location is never attempted — although the second location alone
would yield one message. -/
theorem claim_C3_open_failure_aborts_import :
    (Csv.mk ["a.csv", "b.csv"] false ',' 0).import Mapping.Layout.default
        toyParse fsC3
      = .failed [] (.importError ("Failed to import file " ++ "a.csv")) ∧
    (Csv.mk ["b.csv"] false ',' 0).import Mapping.Layout.default
        toyParse fsC3
      = .ok [Message.new ⟨1, 0⟩ ("data", "7") []] := by
  constructor
  · rfl
  · rfl

/-- Claim C4 evaluation: the single data row `t1` has one token, the
resolved measure column index is `1`, and `data[measure]`
(`src/mapper/csv.rs` line 110) is an out-of-range `Vec` index: the import
panics instead of skipping the row. -/
theorem claim_C4_short_row_panics :
    (Csv.mk ["c.csv"] false ',' 0).import Mapping.Layout.default
        toyParse fsC4
      = .panicked [] := by
  rfl

/-- Claim C2 evaluation: with tag names `["x", "y"]` and a header
containing only `y` (at column 0), the resolved tag-index list is `[0]`
and the pairing loop (`src/mapper/csv.rs` lines 119-122) re-indexes it
against the full tag-name list: the emitted message carries the pair
`("x", "V")`, giving tag name `x` — which matches no header column at
all — the value of the column that `y` matched. -/
theorem claim_C2_tag_mispairing :
    (Csv.mk ["d.csv"] false ',' 0).import layoutC2 toyParse fsC2
      = .ok [Message.new ⟨1, 0⟩ ("data", "5") [("x", "V")]] ∧
    "x" ∉ (Csv.mk ["d.csv"] false ',' 0).split "y,data,timestamp" := by
  constructor
  · rfl
  · decide

/-- Claim C7 (amended).  The worker renders exactly the messages received
before the shutdown signal; each rendered record carries the message's
field name, field value and tag pairs unchanged, and the timestamp is the
i64 product `m.time * 1000000000` — equal to the exact mathematical
product whenever that product fits in an i64 (beyond that the i64
multiplication wraps, see the counterexample). -/
theorem claim_C7_worker_render (series : String) (queue : List (Option Message)) :
    runWorker series queue =
      (messagesUntilShutdown queue).map (renderMessage series) ∧
    ∀ m : Message,
      (renderMessage series m).fields = [(m.value.1, m.value.2)] ∧
      (renderMessage series m).tags = m.tags ∧
      (renderMessage series m).key = series ∧
      (renderMessage series m).timestamp = wrap64 (m.time * 1000000000) ∧
      (-2 ^ 63 ≤ m.time * 1000000000 → m.time * 1000000000 < 2 ^ 63 →
        (renderMessage series m).timestamp = m.time * 1000000000) := by
  constructor
  · induction queue with
    | nil => rfl
    | cons x rest ih =>
      cases x with
      | none => rfl
      | some m => simp only [runWorker, messagesUntilShutdown, List.map_cons, ih]
  · intro m
    refine ⟨rfl, rfl, rfl, rfl, fun h1 h2 => ?_⟩
    simpa [renderMessage] using wrap64_eq_self h1 h2

/-- Counterexample to claim C7 as stated: for the valid chrono timestamp
10000000000 s (year 2286) the i64 product overflows, and the rendered
timestamp is not the stored seconds multiplied by 1000000000. -/
theorem claim_C7_counterexample :
    (renderMessage "s" (Message.new ⟨10000000000, 0⟩ ("data", "0") [])).timestamp
      ≠ (Message.new ⟨10000000000, 0⟩ ("data", "0") []).time * 1000000000 := by
  decide

/-- Witness for C7: a small timestamp renders to the exact product. -/
theorem claim_C7_witness :
    (renderMessage "s" (Message.mk 5 ("power", "1") [("a", "b")])).timestamp
      = (5 : Int) * 1000000000 :=
  ((claim_C7_worker_render "s" []).2 (Message.mk 5 ("power", "1") [("a", "b")])).2.2.2.2
    (by decide) (by decide)

/-- Claim C10 (amended).  `Message::new` stores only the whole-second
timestamp — the sub-second part of the input datetime never influences the
message — and the worker's nanosecond timestamp is the i64 product of
those seconds with 1000000000, an exact multiple of 1000000000 whenever
the product fits in an i64 (beyond that the i64 multiplication wraps, see
the counterexample). -/
theorem claim_C10_whole_seconds (series : String) (d : DateTime)
    (v : String × String) (tg : List (String × String)) :
    (Message.new d v tg).time = d.secs ∧
    (∀ n : Nat, Message.new ⟨d.secs, n⟩ v tg = Message.new d v tg) ∧
    (renderMessage series (Message.new d v tg)).timestamp =
      wrap64 (d.secs * 1000000000) ∧
    (-2 ^ 63 ≤ d.secs * 1000000000 → d.secs * 1000000000 < 2 ^ 63 →
      (1000000000 : Int) ∣ (renderMessage series (Message.new d v tg)).timestamp) := by
  refine ⟨rfl, fun n => rfl, rfl, fun h1 h2 => ?_⟩
  have ht : (renderMessage series (Message.new d v tg)).timestamp =
      d.secs * 1000000000 := by
    simpa [renderMessage, Message.new, DateTime.timestamp] using
      wrap64_eq_self h1 h2
  rw [ht]
  exact dvd_mul_left 1000000000 d.secs

/-- Counterexample to claim C10 as stated: at 10000000000 s the wrapped
i64 nanosecond timestamp is not a multiple of 1000000000. -/
theorem claim_C10_counterexample :
    ¬ (1000000000 : Int) ∣
      (renderMessage "s" (Message.new ⟨10000000000, 1⟩ ("data", "0") [])).timestamp := by
  decide

/-- Witness for C10: at 7 s (with a sub-second part that is discarded) the
rendered nanosecond timestamp is a multiple of 1000000000. -/
theorem claim_C10_witness :
    (1000000000 : Int) ∣
      (renderMessage "w" (Message.new ⟨7, 123⟩ ("a", "b") [])).timestamp :=
  (claim_C10_whole_seconds "w" ⟨7, 123⟩ ("a", "b") []).2.2.2
    (by decide) (by decide)

/-- Claim C8.  While the worker is alive, `join` enqueues the shutdown
signal first (the worker's write sequence is over the queue *with the
signal appended*) and only then waits for the worker, which terminates;
afterwards the receiver is gone, so every further send — and the send of a
second `join` — returns the `Send` error to the caller (`src/client.rs`
lines 44-54; mpsc sends fail exactly when the receiver is dropped). -/
theorem claim_C8_shutdown_send_errors (series : String) (st : ClientState)
    (h : st.workerAlive = true) :
    InfluxClient.join series st =
      .ok (runWorker series (st.queue ++ [none]), ⟨[], false⟩) ∧
    (∀ st' : ClientState, st'.workerAlive = false →
      (∀ m : Message, InfluxClient.send st' m = .error .sendError) ∧
      InfluxClient.join series st' = .error .sendError) := by
  constructor
  · simp [InfluxClient.join, ClientState.sendRaw, h]
  · intro st' h'
    constructor
    · intro m
      simp [InfluxClient.send, ClientState.sendRaw, h']
    · simp [InfluxClient.join, ClientState.sendRaw, h']

/-- Witness for C8: joining a live idle client succeeds and terminates the
worker; joining the resulting dead client fails with the send error. -/
theorem claim_C8_witness :
    InfluxClient.join "s" ⟨[], true⟩ =
      .ok (runWorker "s" ([] ++ [none]), ⟨[], false⟩) ∧
    InfluxClient.join "s" ⟨[], false⟩ = .error .sendError :=
  ⟨(claim_C8_shutdown_send_errors "s" ⟨[], true⟩ rfl).1,
   ((claim_C8_shutdown_send_errors "s" ⟨[], true⟩ rfl).2 ⟨[], false⟩ rfl).2⟩

/-- Claim C9 evaluation: the loop of `Interactive::import`
(`src/mapper/interactive.rs` lines 45-75) has no returning branch — every
path ends in `continue` or falls through to the next iteration, and at end
of input `read_line` keeps returning `Ok(0)` with an empty buffer — so for
every amount of fuel, every stdin (including immediate end of input) and
every parser the loop is still running: `import` never returns success. -/
theorem claim_C9_interactive_never_returns (layout : Mapping.Layout)
    (parse : String → String → Option DateTime) (fuel : Nat)
    (stdin : List String) (sent : List Message) :
    Interactive.importFuel layout parse fuel stdin sent = none := by
  induction fuel generalizing stdin sent with
  | zero => rfl
  | succ fuel ih =>
    simp only [Interactive.importFuel]
    split
    · exact ih _ _
    · exact ih _ _

end XInflux
